import Mathlib

/-!
Verification of the agent orchestration core of the repository
(`fastapi-backend/agents/base_agent.py`, `language_agent.py`,
`speech_agent.py`) against its natural-language specification.

Shallow embedding conventions:
* Python values (`Dict[str, Any]` payloads) are modelled by the inductive
  type `Val`; Python dicts are insertion-ordered association lists, with
  `dictGet?` / `dictSet` / `dictDel` reproducing Python lookup, assignment
  (replace-in-place or append) and `del`.
* `datetime` instants are modelled as integer timestamps; `isoformat`
  renders one to a string and `fromisoformat` parses it back, failing
  (returning `none`, the analogue of `datetime.fromisoformat` raising)
  on a malformed string.
* Exceptions raised by `process` are modelled by `Except String Val`:
  the `String` is the result of Python `str(e)`.
* The fresh `uuid.uuid4()` task id and each `datetime.now()` reading are
  nondeterministic inputs of a call; they are passed explicitly in an
  `ExecEnv` record (`start_time` is the first reading, `end_time` the
  second; `err_time` is the extra `datetime.now()` made while building the
  failure envelope's `timestamp` field).
-/

namespace AgentCore

/-- A Python value as it appears in the task payloads of the agent layer:
`None`, booleans, integers, strings, lists and string-keyed dicts. -/
inductive Val : Type where
  | null : Val
  | bool : Bool → Val
  | int : Int → Val
  | str : String → Val
  | list : List Val → Val
  | dict : List (String × Val) → Val
deriving Repr

section DictOps

variable {κ α : Type} [DecidableEq κ]

/-- Python `d.get(key)` / `d[key]` on an insertion-ordered dict modelled as an
association list: the value at the first (unique, for genuine dicts)
occurrence of the key. -/
def dictGet? : List (κ × α) → κ → Option α
  | [], _ => Option.none
  | (k, v) :: rest, key => if k = key then Option.some v else dictGet? rest key

/-- Python `d[key] = v`: replace the value in place when the key is present,
append a new binding otherwise (insertion order preserved). -/
def dictSet : List (κ × α) → κ → α → List (κ × α)
  | [], key, v => [(key, v)]
  | (k, w) :: rest, key, v =>
      if k = key then (k, v) :: rest else (k, w) :: dictSet rest key v

/-- Python `del d[key]`: remove the binding at the first occurrence of the
key (for genuine dicts the only one). -/
def dictDel : List (κ × α) → κ → List (κ × α)
  | [], _ => []
  | (k, w) :: rest, key =>
      if k = key then rest else (k, w) :: dictDel rest key

end DictOps

mutual

/-- Models Python `repr` on `Val` (string escaping inside `repr` of a string
is not reproduced; none of the verified properties depends on it). -/
def pyRepr : Val → String
  | Val.null => "None"
  | Val.bool true => "True"
  | Val.bool false => "False"
  | Val.int n => toString n
  | Val.str s => "\x27" ++ s ++ "\x27"
  | Val.list xs => "[" ++ pyReprSeq xs ++ "]"
  | Val.dict kvs => "\x7b" ++ pyReprKVs kvs ++ "\x7d"

/-- Comma-separated `repr`s of the elements of a Python list. -/
def pyReprSeq : List Val → String
  | [] => ""
  | [v] => pyRepr v
  | v :: vs => pyRepr v ++ ", " ++ pyReprSeq vs

/-- Comma-separated `key: repr(value)` items of a Python dict. -/
def pyReprKVs : List (String × Val) → String
  | [] => ""
  | [(k, v)] => "\x27" ++ k ++ "\x27: " ++ pyRepr v
  | (k, v) :: kvs => "\x27" ++ k ++ "\x27: " ++ pyRepr v ++ ", " ++ pyReprKVs kvs

end

/-- Models Python `str` (and hence f-string interpolation) on `Val`:
identical to `repr` except on strings, which interpolate verbatim. -/
def pyStr : Val → String
  | Val.str s => s
  | v => pyRepr v

/-- f-string interpolation of the result of a `d.get(key)` call: a missing
key yields Python `None`, which prints as `"None"`. -/
def pyStrGet : Option Val → String
  | Option.none => "None"
  | Option.some v => pyStr v

/-- f-string interpolation of an optional string (e.g. `step.get('agent')`
in a workflow step with no `agent` key interpolates as `"None"`). -/
def pyStrOptName : Option String → String
  | Option.none => "None"
  | Option.some s => s

/-- An integer `datetime` instant rendered by `.isoformat()`. In the model
the rendering is the decimal numeral of the timestamp. -/
def isoformat (t : Int) : String := toString t

/-- Accumulating decimal parser over the characters of a timestamp string;
`Option.none` as the running value means no digit has been seen yet, and
any non-digit character fails the whole parse. -/
def parseDigits : List Char → Option Nat → Option Nat
  | [], acc => acc
  | c :: cs, acc =>
      if c.isDigit then
        parseDigits cs (Option.some ((acc.getD 0) * 10 + (c.toNat - 48)))
      else Option.none

/-- `datetime.fromisoformat` on a stored timestamp string: parses the
decimal numeral produced by `isoformat`; `none` models the call raising on
a malformed string. -/
def fromisoformat (s : String) : Option Int :=
  match s.data with
  | [] => Option.none
  | '-' :: rest => (parseDigits rest Option.none).map (fun n => -(n : Int))
  | l => (parseDigits l Option.none).map (fun n => (n : Int))

/-- The `metrics` dict of `BaseAgent` (`base_agent.py`, lines 26-31). -/
structure Metrics : Type where
  tasks_completed : Nat
  tasks_failed : Nat
  average_processing_time : ℚ
  last_activity : Option String
deriving Repr, DecidableEq

/-- The initial metrics dict of a freshly constructed agent (also the value
`reset_metrics` restores). -/
def initMetrics : Metrics :=
  { tasks_completed := 0, tasks_failed := 0,
    average_processing_time := 0, last_activity := Option.none }

/-- The mutable fields of a `BaseAgent` instance (`base_agent.py`,
lines 20-31). The polymorphic `process` behaviour is carried separately. -/
structure AgentState : Type where
  name : String
  description : String
  agent_id : String
  created_at : Int
  status : String
  metrics : Metrics
deriving Repr

/-- A task-result envelope, the union of the dict shapes returned by
`execute_task` (success and failure) and by `execute_agent_task`
(agent-not-found). `Option.none` in a field models the key being absent
from the returned dict. -/
structure Envelope : Type where
  success : Bool
  task_id : Option String
  agent_name : Option String
  result : Option Val
  error : Option String
  processing_time : Option ℚ
  timestamp : String
deriving Repr

/-- The nondeterministic inputs of one `execute_task` call: the
`uuid.uuid4()` task id, the `datetime.now()` at entry (`start_time`), the
next `datetime.now()` (`end_time`: the success path's single end reading,
or the failure path's reading used for `processing_time`), and the failure
path's final `datetime.now()` used for the envelope `timestamp`
(`err_time`). -/
structure ExecEnv : Type where
  task_id : String
  start_time : Int
  end_time : Int
  err_time : Int
deriving Repr

/-- The behaviour of a concrete agent's `process` coroutine: a function of
the task payload that either returns a value or raises (the `String` being
`str` of the exception). -/
def ProcessFun : Type := List (String × Val) → Except String Val

/-- `BaseAgent.execute_task` (`base_agent.py`, lines 38-91): wraps one
`process` call with status transitions, metric bookkeeping and envelope
construction. Returns the updated agent state together with the returned
envelope. The transient `status = "processing"` assignment at line 44 is
observable only during the call and is absorbed by the final assignment on
each path. -/
def execute_task (proc : ProcessFun) (a : AgentState) (e : ExecEnv)
    (task_data : List (String × Val)) : AgentState × Envelope :=
  match proc task_data with
  | Except.ok result =>
      let processing_time : ℚ := ((e.end_time - e.start_time : Int) : ℚ)
      let m1 : Metrics :=
        { a.metrics with
          tasks_completed := a.metrics.tasks_completed + 1,
          last_activity := Option.some (isoformat e.end_time) }
      let total_tasks : Nat := m1.tasks_completed + m1.tasks_failed
      let m2 : Metrics :=
        if total_tasks > 1 then
          { m1 with average_processing_time :=
              (m1.average_processing_time * ((total_tasks : ℚ) - 1)
                + processing_time) / (total_tasks : ℚ) }
        else
          { m1 with average_processing_time := processing_time }
      ({ a with status := "idle", metrics := m2 },
       { success := true,
         task_id := Option.some e.task_id,
         agent_name := Option.some a.name,
         result := Option.some result,
         error := Option.none,
         processing_time := Option.some processing_time,
         timestamp := isoformat e.end_time })
  | Except.error err =>
      let mf : Metrics :=
        { a.metrics with tasks_failed := a.metrics.tasks_failed + 1 }
      ({ a with status := "error", metrics := mf },
       { success := false,
         task_id := Option.some e.task_id,
         agent_name := Option.some a.name,
         result := Option.none,
         error := Option.some err,
         processing_time := Option.some ((e.end_time - e.start_time : Int) : ℚ),
         timestamp := isoformat e.err_time })

/-- The status snapshot dict returned by `BaseAgent.get_status`
(`base_agent.py`, lines 93-102). -/
structure StatusSnapshot : Type where
  agent_id : String
  name : String
  description : String
  status : String
  created_at : String
  metrics : Metrics
deriving Repr

/-- Python `self.metrics.copy()`: a fresh dict with the same contents. -/
def Metrics.copy (m : Metrics) : Metrics :=
  { tasks_completed := m.tasks_completed,
    tasks_failed := m.tasks_failed,
    average_processing_time := m.average_processing_time,
    last_activity := m.last_activity }

/-- `BaseAgent.get_status` (`base_agent.py`, lines 93-102) in the pure
state model. -/
def AgentState.get_status (a : AgentState) : StatusSnapshot :=
  { agent_id := a.agent_id,
    name := a.name,
    description := a.description,
    status := a.status,
    created_at := isoformat a.created_at,
    metrics := Metrics.copy a.metrics }

/-- A registered agent: its mutable state together with its polymorphic
`process` behaviour. -/
structure Agent : Type where
  st : AgentState
  proc : ProcessFun

/-- The mutable fields of `AgentOrchestrator` (`base_agent.py`,
lines 116-120). The `task_queue` is consumed only by the background
polling loop, which is outside the scope of the verified claims; it is
not modelled. -/
structure Orchestrator : Type where
  agents : List (String × Agent)
  results_cache : List (String × Envelope)
  running : Bool

/-- `AgentOrchestrator.register_agent` (`base_agent.py`, lines 122-125):
insert or overwrite under the agent's own `name` key. -/
def register_agent (o : Orchestrator) (a : Agent) : Orchestrator :=
  { o with agents := dictSet o.agents a.st.name a }

/-- `AgentOrchestrator.unregister_agent` (`base_agent.py`, lines 127-131):
remove the entry when present, no-op otherwise. -/
def unregister_agent (o : Orchestrator) (agent_name : String) : Orchestrator :=
  if (dictGet? o.agents agent_name).isSome then
    { o with agents := dictDel o.agents agent_name }
  else o

/-- The failure envelope `execute_agent_task` builds for an unregistered
agent name (`base_agent.py`, lines 136-140): no `task_id`, no `agent_name`,
no `result`, no `processing_time` keys. The `timestamp` reading is the one
`datetime.now()` call of this branch. -/
def notFoundEnvelope (agent_name : Option String) (t : Int) : Envelope :=
  { success := false,
    task_id := Option.none,
    agent_name := Option.none,
    result := Option.none,
    error := Option.some ("Agent " ++ pyStrOptName agent_name ++ " not found"),
    processing_time := Option.none,
    timestamp := isoformat t }

/-- `AgentOrchestrator.execute_agent_task` (`base_agent.py`, lines
133-149). The `agent_name` argument is `Option String` because
`execute_workflow` passes `step.get('agent')`, which is `None` when the
step has no `agent` key; a `None` name is never a registry key, so it takes
the not-found branch, exactly as in the source. The Python agent object is
mutated in place; here the updated state is stored back into the registry,
its pure analogue. In the source, a success envelope always carries a
`task_id` (see `execute_task`), so the inner `Option.none` fallback branch
is unreachable. -/
def execute_agent_task (o : Orchestrator) (agent_name : Option String)
    (task_data : List (String × Val)) (e : ExecEnv) : Orchestrator × Envelope :=
  match agent_name with
  | Option.none => (o, notFoundEnvelope Option.none e.start_time)
  | Option.some n =>
    match dictGet? o.agents n with
    | Option.none => (o, notFoundEnvelope (Option.some n) e.start_time)
    | Option.some ag =>
      let r := execute_task ag.proc ag.st e task_data
      let o2 : Orchestrator :=
        { o with agents := dictSet o.agents n { st := r.1, proc := ag.proc } }
      if r.2.success then
        match r.2.task_id with
        | Option.some tid =>
            ({ o2 with results_cache := dictSet o2.results_cache tid r.2 }, r.2)
        | Option.none => (o2, r.2)
      else (o2, r.2)

/-- One workflow step, the dict `\x7bagent: string, data: payload,
required?: bool\x7d` of the inbound interface: `agent` models
`step.get('agent')`, `data` models `step.get('data', \x7b\x7d)` and
`required` models `step.get('required', True)`, with `Option.none`
standing for an absent key. -/
structure Step : Type where
  agent : Option String
  data : Option (List (String × Val))
  required : Option Bool

/-- The loop body of `AgentOrchestrator.execute_workflow` (`base_agent.py`,
lines 156-174), recursing over the remaining steps. `i` indexes the
nondeterministic per-step `ExecEnv` supply, `context` is the accumulated
inter-step context dict and `acc` the envelopes appended so far. -/
def execute_workflow_go (o : Orchestrator) (steps : List Step)
    (envs : Nat → ExecEnv) (i : Nat) (context : List (String × Val))
    (acc : List Envelope) : Orchestrator × List Envelope :=
  match steps with
  | [] => (o, acc)
  | step :: rest =>
      let agent_name := step.agent
      let task_data := step.data.getD []
      let task_data := dictSet task_data "context" (Val.dict context)
      let r := execute_agent_task o agent_name task_data (envs i)
      let acc2 := acc ++ [r.2]
      if r.2.success then
        let context2 :=
          dictSet context (pyStrOptName agent_name ++ "_result")
            (r.2.result.getD Val.null)
        execute_workflow_go r.1 rest envs (i + 1) context2 acc2
      else
        if step.required.getD true then (r.1, acc2)
        else execute_workflow_go r.1 rest envs (i + 1) context acc2

/-- `AgentOrchestrator.execute_workflow` (`base_agent.py`, lines 151-176):
run the steps in order from an empty context and an empty result list.
Totality of this definition is the model-level rendering of the method
never raising. -/
def execute_workflow (o : Orchestrator) (workflow : List Step)
    (envs : Nat → ExecEnv) : Orchestrator × List Envelope :=
  execute_workflow_go o workflow envs 0 [] []

/-- `AgentOrchestrator.get_all_agent_status` (`base_agent.py`,
lines 178-180). -/
def get_all_agent_status (o : Orchestrator) : List (String × StatusSnapshot) :=
  o.agents.map (fun p => (p.1, p.2.st.get_status))

/-- The first loop of `cleanup_results_cache` (`base_agent.py`, lines
226-231): walk the cache in insertion order collecting the keys of entries
older than the threshold. `Option.none` models `datetime.fromisoformat`
raising on a malformed stored timestamp, which aborts the whole `try` body
(the source's `try` wraps the entire sweep, not each entry). -/
def computeToRemove (current_time : Int) (max_age_hours : ℚ) :
    List (String × Envelope) → Option (List String)
  | [] => Option.some []
  | (tid, result) :: rest =>
    match fromisoformat result.timestamp with
    | Option.none => Option.none
    | Option.some t =>
      let age_seconds : Int := current_time - t
      let age_hours : ℚ := (age_seconds : ℚ) / 3600
      match computeToRemove current_time max_age_hours rest with
      | Option.none => Option.none
      | Option.some l =>
          Option.some (if age_hours > max_age_hours then tid :: l else l)

/-- `AgentOrchestrator.cleanup_results_cache` (`base_agent.py`, lines
220-237): compute the expired keys, then delete them; an exception raised
anywhere inside the `try` (in the model: a malformed timestamp found while
scanning) is caught, logged and leaves the cache untouched. -/
def cleanup_results_cache (o : Orchestrator) (current_time : Int)
    (max_age_hours : ℚ) : Orchestrator :=
  match computeToRemove current_time max_age_hours o.results_cache with
  | Option.none => o
  | Option.some to_remove =>
      { o with results_cache :=
          to_remove.foldl (fun c tid => dictDel c tid) o.results_cache }

/-- The Python test `task_type == "<tag>"` used by the `process` dispatch
chains: Python equality between an arbitrary value (or `None` for a missing
key) and a string literal. -/
def taskTypeIs (tt : Option Val) (tag : String) : Bool :=
  match tt with
  | Option.some (Val.str s) => s = tag
  | _ => false

/-- The six sub-operation handlers of `LanguageSelectorAgent`. Their bodies
call the external translation provider (`language_service`), an external
collaborator outside the verified core (spec §6), so they are parameters of
the dispatch model. -/
structure LanguageHandlers : Type where
  detect_language : ProcessFun
  translate_content : ProcessFun
  localize_learning : ProcessFun
  translate_quiz : ProcessFun
  translate_resources : ProcessFun
  create_multilingual_prompt : ProcessFun

/-- `LanguageSelectorAgent.process` (`language_agent.py`, lines 24-41):
dispatch on `input_data.get('task_type')` through the `if`/`elif` chain,
raising `ValueError(f"Unknown task type: \x7btask_type\x7d")` when no tag
matches. -/
def languageProcess (h : LanguageHandlers) (input_data : List (String × Val)) :
    Except String Val :=
  let task_type := dictGet? input_data "task_type"
  if taskTypeIs task_type "detect_language" then h.detect_language input_data
  else if taskTypeIs task_type "translate_content" then h.translate_content input_data
  else if taskTypeIs task_type "localize_learning" then h.localize_learning input_data
  else if taskTypeIs task_type "translate_quiz" then h.translate_quiz input_data
  else if taskTypeIs task_type "translate_resources" then h.translate_resources input_data
  else if taskTypeIs task_type "create_multilingual_prompt" then
    h.create_multilingual_prompt input_data
  else Except.error ("Unknown task type: " ++ pyStrGet task_type)

/-- The string tags recognized by `LanguageSelectorAgent.process`. -/
def languageTaskTags : List String :=
  ["detect_language", "translate_content", "localize_learning",
   "translate_quiz", "translate_resources", "create_multilingual_prompt"]

/-- The five sub-operation handlers of `SpeechAgent`; as for
`LanguageHandlers`, they wrap external speech providers and are parameters
of the dispatch model. -/
structure SpeechHandlers : Type where
  speech_to_text : ProcessFun
  text_to_speech : ProcessFun
  process_voice_question : ProcessFun
  generate_audio_response : ProcessFun
  voice_interaction_flow : ProcessFun

/-- `SpeechAgent.process` (`speech_agent.py`, lines 24-39): the analogous
dispatch chain over the speech task tags. -/
def speechProcess (h : SpeechHandlers) (input_data : List (String × Val)) :
    Except String Val :=
  let task_type := dictGet? input_data "task_type"
  if taskTypeIs task_type "speech_to_text" then h.speech_to_text input_data
  else if taskTypeIs task_type "text_to_speech" then h.text_to_speech input_data
  else if taskTypeIs task_type "process_voice_question" then
    h.process_voice_question input_data
  else if taskTypeIs task_type "generate_audio_response" then
    h.generate_audio_response input_data
  else if taskTypeIs task_type "voice_interaction_flow" then
    h.voice_interaction_flow input_data
  else Except.error ("Unknown task type: " ++ pyStrGet task_type)

/-- The string tags recognized by `SpeechAgent.process`. -/
def speechTaskTags : List String :=
  ["speech_to_text", "text_to_speech", "process_voice_question",
   "generate_audio_response", "voice_interaction_flow"]

/-!
Reference model of `get_status` copy semantics. The pure `AgentState`
model cannot express that the caller of `get_status` receives a *copy* of
the live `metrics` dict, so the dict-reference aspect is modelled
explicitly: a heap of metrics dicts addressed by natural numbers, an agent
object holding a reference into it, and `get_status` allocating a fresh
cell holding `self.metrics.copy()`.
-/

/-- A heap of Python metrics dicts: allocated cells keyed by address, plus
the next fresh address. -/
structure MetricsHeap : Type where
  cells : List (Nat × Metrics)
  next : Nat

/-- Every allocated address is below `next` (true of every heap reachable
by allocation). -/
def MetricsHeap.wf (h : MetricsHeap) : Prop :=
  ∀ p ∈ h.cells, p.1 < h.next

/-- Dereference a metrics dict. -/
def heapGet? (h : MetricsHeap) (r : Nat) : Option Metrics :=
  dictGet? h.cells r

/-- Allocate a fresh metrics dict, returning the new heap and its
address. -/
def heapAlloc (h : MetricsHeap) (m : Metrics) : MetricsHeap × Nat :=
  ({ cells := h.cells ++ [(h.next, m)], next := h.next + 1 }, h.next)

/-- Mutate the metrics dict at an address in place. -/
def heapSet (h : MetricsHeap) (r : Nat) (m : Metrics) : MetricsHeap :=
  { h with cells := dictSet h.cells r m }

/-- A `BaseAgent` object whose `metrics` field is a reference into the
heap. -/
structure AgentObj : Type where
  name : String
  description : String
  agent_id : String
  created_at : Int
  status : String
  metricsRef : Nat

/-- The snapshot returned by `get_status` in the reference model: the
`metrics` entry is a reference to the freshly allocated copy. -/
structure SnapshotObj : Type where
  agent_id : String
  name : String
  description : String
  status : String
  created_at : String
  metricsRef : Nat

/-- `BaseAgent.get_status` (`base_agent.py`, lines 93-102) in the
reference model: read the live metrics, allocate a fresh cell holding
`self.metrics.copy()`, and return the snapshot pointing at that cell. The
`initMetrics` fallback on a dangling reference is unreachable for agents
whose reference is allocated. -/
def get_status_obj (h : MetricsHeap) (a : AgentObj) : MetricsHeap × SnapshotObj :=
  let m := (heapGet? h a.metricsRef).getD initMetrics
  let alloc := heapAlloc h (Metrics.copy m)
  (alloc.1,
   { agent_id := a.agent_id,
     name := a.name,
     description := a.description,
     status := a.status,
     created_at := isoformat a.created_at,
     metricsRef := alloc.2 })

/-! Concrete fixtures used by witnesses. -/

/-- A concrete agent state with fresh metrics. -/
def cAgent : AgentState :=
  { name := "A", description := "first agent", agent_id := "id-a",
    created_at := 0, status := "initialized", metrics := initMetrics }

/-- A concrete execution environment. -/
def cEnv : ExecEnv :=
  { task_id := "t1", start_time := 0, end_time := 3, err_time := 4 }

/-- A `process` behaviour that always returns normally. -/
def cOkProc : ProcessFun := fun _ => Except.ok (Val.str "done")

/-- A `process` behaviour that always raises an exception whose `str` is
empty (e.g. `raise ValueError()`). -/
def cEmptyErrProc : ProcessFun := fun _ => Except.error ""

/-- An orchestrator with no registered agents and an empty cache. -/
def emptyOrch : Orchestrator :=
  { agents := [], results_cache := [], running := false }

/-- C1: on a task whose `process` call returns normally, `execute_task`
increments `tasks_completed` by exactly 1, leaves `tasks_failed` unchanged,
stamps `last_activity` with the completion time, recomputes the running
mean as `(avg*(n-1) + latest)/n` for `n = tasks_completed + tasks_failed`
after the increment (the latest time alone when `n = 1`), sets the status
to `idle`, and returns a success envelope carrying `success = true`, the
freshly generated task id, the agent's name, the `process` result, the
elapsed processing time and the completion timestamp. -/
theorem C1_execute_task_success (proc : ProcessFun) (a : AgentState)
    (e : ExecEnv) (d : List (String × Val)) (r : Val)
    (h : proc d = Except.ok r) :
    ((execute_task proc a e d).1.metrics.tasks_completed
        = a.metrics.tasks_completed + 1) ∧
    ((execute_task proc a e d).1.metrics.tasks_failed
        = a.metrics.tasks_failed) ∧
    ((execute_task proc a e d).1.metrics.last_activity
        = Option.some (isoformat e.end_time)) ∧
    ((execute_task proc a e d).1.metrics.average_processing_time =
      if a.metrics.tasks_completed + 1 + a.metrics.tasks_failed = 1 then
        ((e.end_time - e.start_time : Int) : ℚ)
      else
        (a.metrics.average_processing_time
            * (((a.metrics.tasks_completed + 1 + a.metrics.tasks_failed : Nat) : ℚ) - 1)
          + ((e.end_time - e.start_time : Int) : ℚ))
        / ((a.metrics.tasks_completed + 1 + a.metrics.tasks_failed : Nat) : ℚ)) ∧
    ((execute_task proc a e d).1.status = "idle") ∧
    ((execute_task proc a e d).2.success = true) ∧
    ((execute_task proc a e d).2.task_id = Option.some e.task_id) ∧
    ((execute_task proc a e d).2.agent_name = Option.some a.name) ∧
    ((execute_task proc a e d).2.result = Option.some r) ∧
    ((execute_task proc a e d).2.processing_time
        = Option.some ((e.end_time - e.start_time : Int) : ℚ)) ∧
    ((execute_task proc a e d).2.timestamp = isoformat e.end_time) := by
  unfold execute_task
  rw [h]
  by_cases h1 : a.metrics.tasks_completed + 1 + a.metrics.tasks_failed = 1
  · have h2 : ¬ (a.metrics.tasks_completed + 1 + a.metrics.tasks_failed > 1) := by
      omega
    simp [h1, h2]
  · have h2 : a.metrics.tasks_completed + 1 + a.metrics.tasks_failed > 1 := by
      omega
    simp [h1, h2]

/-- Witness for C1 at a concrete agent and a concrete successful task. -/
theorem C1_execute_task_success_witness :
    cOkProc [] = Except.ok (Val.str "done") ∧
    ((execute_task cOkProc cAgent cEnv []).1.metrics.tasks_completed
        = cAgent.metrics.tasks_completed + 1) ∧
    ((execute_task cOkProc cAgent cEnv []).1.status = "idle") ∧
    ((execute_task cOkProc cAgent cEnv []).2.result
        = Option.some (Val.str "done")) := by
  obtain ⟨h1, h2, h3, h4, h5, h6, h7, h8, h9, h10, h11⟩ :=
    C1_execute_task_success cOkProc cAgent cEnv [] (Val.str "done") rfl
  exact ⟨rfl, h1, h5, h9⟩

/-- C2 (amended): on a task whose `process` call raises, `execute_task`
never re-raises: it increments `tasks_failed` by exactly 1, leaves
`tasks_completed`, `average_processing_time` and `last_activity` unchanged,
sets the status to `error`, and returns a failure envelope with
`success = false` whose `error` equals the stringified exception (hence
non-empty exactly when `str` of the exception is non-empty); in particular,
for an agent with fresh metrics whose `process` always raises
`ValueError("boom")`, after 3 calls `tasks_failed = 3`,
`tasks_completed = 0` and the third envelope's `error` is `"boom"`. -/
theorem C2_execute_task_failure :
    (∀ (proc : ProcessFun) (a : AgentState) (e : ExecEnv)
        (d : List (String × Val)) (msg : String),
      proc d = Except.error msg →
      ((execute_task proc a e d).1.metrics.tasks_failed
          = a.metrics.tasks_failed + 1) ∧
      ((execute_task proc a e d).1.metrics.tasks_completed
          = a.metrics.tasks_completed) ∧
      ((execute_task proc a e d).1.metrics.average_processing_time
          = a.metrics.average_processing_time) ∧
      ((execute_task proc a e d).1.metrics.last_activity
          = a.metrics.last_activity) ∧
      ((execute_task proc a e d).1.status = "error") ∧
      ((execute_task proc a e d).2.success = false) ∧
      ((execute_task proc a e d).2.error = Option.some msg)) ∧
    (∀ (nm ds aid st : String) (ca : Int) (e1 e2 e3 : ExecEnv)
        (d : List (String × Val)),
      (let a : AgentState :=
        { name := nm, description := ds, agent_id := aid,
          created_at := ca, status := st, metrics := initMetrics }
       let boom : ProcessFun := fun _ => Except.error "boom"
       let a1 := (execute_task boom a e1 d).1
       let a2 := (execute_task boom a1 e2 d).1
       ((execute_task boom a2 e3 d).1.metrics.tasks_failed = 3) ∧
       ((execute_task boom a2 e3 d).1.metrics.tasks_completed = 0) ∧
       ((execute_task boom a2 e3 d).2.error = Option.some "boom"))) := by
  constructor
  · intro proc a e d msg h
    unfold execute_task
    rw [h]
    exact ⟨rfl, rfl, rfl, rfl, rfl, rfl, rfl⟩
  · intro nm ds aid st ca e1 e2 e3 d
    exact ⟨rfl, rfl, rfl⟩

/-- Witness for C2 at a concrete agent whose `process` raises
`ValueError("boom")` three times. -/
theorem C2_execute_task_failure_witness :
    (let a : AgentState :=
      { name := "A", description := "first agent", agent_id := "id-a",
        created_at := 0, status := "initialized", metrics := initMetrics }
     let boom : ProcessFun := fun _ => Except.error "boom"
     let a1 := (execute_task boom a cEnv []).1
     let a2 := (execute_task boom a1 cEnv []).1
     ((execute_task boom a2 cEnv []).1.metrics.tasks_failed = 3) ∧
     ((execute_task boom a2 cEnv []).1.metrics.tasks_completed = 0) ∧
     ((execute_task boom a2 cEnv []).2.error = Option.some "boom")) ∧
    ((fun _ => Except.error "boom" : ProcessFun) [] = Except.error "boom" ∧
     ((execute_task (fun _ => Except.error "boom") cAgent cEnv []).2.success
        = false)) :=
  ⟨C2_execute_task_failure.2 "A" "first agent" "id-a" "initialized" 0
      cEnv cEnv cEnv [],
   rfl,
   (C2_execute_task_failure.1 (fun _ => Except.error "boom") cAgent cEnv []
      "boom" rfl).2.2.2.2.2.1⟩

/-- Counterexample to C2 as stated: the claim requires the failure
envelope's `error` to be a *non-empty* string equal to the stringified
exception, but `error` is exactly `str(e)`, which is empty for an
exception such as `ValueError()`; here a `process` raising an exception
whose `str` is `""` yields a failure envelope whose `error` string is
empty. -/
theorem C2_empty_error_counterexample :
    ((execute_task cEmptyErrProc cAgent cEnv []).2.success = false) ∧
    ((execute_task cEmptyErrProc cAgent cEnv []).2.error = Option.some "") ∧
    ("" : String).length = 0 :=
  ⟨rfl, rfl, rfl⟩

/-- C4: executing a task against an unregistered agent name never throws:
it returns a failure envelope whose `error` is `"Agent <name> not found"`
and whose `timestamp` is the current reading, with no `task_id` key, and
leaves the whole orchestrator state — every agent's metrics and status,
and the results cache — unchanged. -/
theorem C4_agent_not_found (o : Orchestrator) (n : String)
    (d : List (String × Val)) (e : ExecEnv)
    (h : dictGet? o.agents n = Option.none) :
    ((execute_agent_task o (Option.some n) d e).1 = o) ∧
    ((execute_agent_task o (Option.some n) d e).2.success = false) ∧
    ((execute_agent_task o (Option.some n) d e).2.error
        = Option.some ("Agent " ++ n ++ " not found")) ∧
    ((execute_agent_task o (Option.some n) d e).2.task_id = Option.none) ∧
    ((execute_agent_task o (Option.some n) d e).2.timestamp
        = isoformat e.start_time) := by
  simp [execute_agent_task, h, notFoundEnvelope, pyStrOptName]

/-- Witness for C4 at a concrete orchestrator with an empty registry. -/
theorem C4_agent_not_found_witness :
    dictGet? emptyOrch.agents "ghost" = Option.none ∧
    ((execute_agent_task emptyOrch (Option.some "ghost") [] cEnv).1
        = emptyOrch) ∧
    ((execute_agent_task emptyOrch (Option.some "ghost") [] cEnv).2.error
        = Option.some ("Agent " ++ "ghost" ++ " not found")) := by
  obtain ⟨h1, h2, h3, h4, h5⟩ :=
    C4_agent_not_found emptyOrch "ghost" [] cEnv rfl
  exact ⟨rfl, h1, h3⟩

/-! Association-list (Python dict) lemmas shared by the theorems below. -/

theorem dictGet?_dictSet_self {κ α : Type} [DecidableEq κ]
    (l : List (κ × α)) (k : κ) (v : α) :
    dictGet? (dictSet l k v) k = Option.some v := by
  induction l with
  | nil => simp [dictSet, dictGet?]
  | cons p rest ih =>
    obtain ⟨k1, v1⟩ := p
    by_cases hk : k1 = k
    · subst hk
      simp [dictSet, dictGet?]
    · simp [dictSet, dictGet?, hk, ih]

theorem dictGet?_dictSet_ne {κ α : Type} [DecidableEq κ]
    (l : List (κ × α)) (k k2 : κ) (v : α) (hne : k ≠ k2) :
    dictGet? (dictSet l k v) k2 = dictGet? l k2 := by
  induction l with
  | nil => simp [dictSet, dictGet?, hne]
  | cons p rest ih =>
    obtain ⟨k1, v1⟩ := p
    by_cases hk : k1 = k
    · subst hk
      simp [dictSet, dictGet?, hne]
    · by_cases hk2 : k1 = k2
      · subst hk2
        simp [dictSet, dictGet?, hk]
      · simp [dictSet, dictGet?, hk, hk2, ih]

theorem mem_dictSet {κ α : Type} [DecidableEq κ]
    (l : List (κ × α)) (k : κ) (v : α) (p : κ × α)
    (h : p ∈ dictSet l k v) : p ∈ l ∨ p = (k, v) := by
  induction l with
  | nil =>
    simp [dictSet] at h
    exact Or.inr h
  | cons q rest ih =>
    obtain ⟨k1, v1⟩ := q
    by_cases hk : k1 = k
    · subst hk
      simp [dictSet] at h
      rcases h with h | h
      · exact Or.inr (by simp [h])
      · exact Or.inl (by simp [h])
    · simp [dictSet, hk] at h
      rcases h with h | h
      · exact Or.inl (by simp [h])
      · rcases ih h with h2 | h2
        · exact Or.inl (by simp [h2])
        · exact Or.inr h2

theorem keys_dictSet {κ α : Type} [DecidableEq κ]
    (l : List (κ × α)) (k : κ) (v : α) :
    (dictSet l k v).map Prod.fst
      = if k ∈ l.map Prod.fst then l.map Prod.fst
        else l.map Prod.fst ++ [k] := by
  induction l with
  | nil => simp [dictSet]
  | cons p rest ih =>
    obtain ⟨k1, v1⟩ := p
    by_cases hk : k1 = k
    · subst hk
      simp [dictSet]
    · have hne : ¬ k = k1 := fun h2 => hk h2.symm
      simp [dictSet, hk, ih, hne]
      by_cases hmem : k ∈ rest.map Prod.fst <;> simp [hmem, hne]

theorem mem_keys_dictSet_self {κ α : Type} [DecidableEq κ]
    (l : List (κ × α)) (k : κ) (v : α) :
    k ∈ (dictSet l k v).map Prod.fst := by
  rw [keys_dictSet]
  by_cases hmem : k ∈ l.map Prod.fst <;> simp [hmem]

theorem length_dictSet {κ α : Type} [DecidableEq κ]
    (l : List (κ × α)) (k : κ) (v : α) :
    (dictSet l k v).length
      = if k ∈ l.map Prod.fst then l.length else l.length + 1 := by
  by_cases hmem : k ∈ l.map Prod.fst <;>
    simpa [hmem] using congrArg List.length (keys_dictSet l k v)

theorem nodup_keys_dictSet {κ α : Type} [DecidableEq κ]
    (l : List (κ × α)) (k : κ) (v : α)
    (h : (l.map Prod.fst).Nodup) :
    ((dictSet l k v).map Prod.fst).Nodup := by
  rw [keys_dictSet]
  by_cases hmem : k ∈ l.map Prod.fst
  · simpa [hmem] using h
  · rw [if_neg hmem]
    refine List.Nodup.append h (List.nodup_singleton k) ?_
    intro x hx hxk
    simp at hxk
    subst hxk
    exact hmem hx

theorem dictGet?_map_snd {κ α β : Type} [DecidableEq κ]
    (l : List (κ × α)) (k : κ) (f : α → β) :
    dictGet? (l.map (fun p => (p.1, f p.2))) k = (dictGet? l k).map f := by
  induction l with
  | nil => simp [dictGet?]
  | cons p rest ih =>
    obtain ⟨k1, v1⟩ := p
    by_cases hk : k1 = k
    · subst hk
      simp [dictGet?]
    · simp [dictGet?, hk, ih]

/-- C8: registering a second agent under an already-registered name
silently replaces the first: the registry afterwards maps that name to the
second agent only (exactly one entry under that name, and the registry
size does not grow with the second registration), and both the agent's
status snapshot and `get_all_agent_status` expose only the second agent's
description. -/
theorem C8_register_replaces (o : Orchestrator) (a1 a2 : Agent)
    (hname : a1.st.name = a2.st.name)
    (hnd : (o.agents.map Prod.fst).Nodup) :
    (dictGet? (register_agent (register_agent o a1) a2).agents a2.st.name
        = Option.some a2) ∧
    ((register_agent (register_agent o a1) a2).agents.length
        = (register_agent o a1).agents.length) ∧
    (((register_agent (register_agent o a1) a2).agents.map Prod.fst).count
        a2.st.name = 1) ∧
    (dictGet? (get_all_agent_status (register_agent (register_agent o a1) a2))
        a2.st.name = Option.some a2.st.get_status) ∧
    (a2.st.get_status.description = a2.st.description) := by
  have hmem : a2.st.name ∈ (register_agent o a1).agents.map Prod.fst := by
    unfold register_agent
    rw [← hname]
    exact mem_keys_dictSet_self o.agents a1.st.name a1
  have hlook : dictGet? (register_agent (register_agent o a1) a2).agents
      a2.st.name = Option.some a2 :=
    dictGet?_dictSet_self (register_agent o a1).agents a2.st.name a2
  have hnd1 : ((register_agent o a1).agents.map Prod.fst).Nodup :=
    nodup_keys_dictSet o.agents a1.st.name a1 hnd
  have hnd2 : ((register_agent (register_agent o a1) a2).agents.map
      Prod.fst).Nodup :=
    nodup_keys_dictSet (register_agent o a1).agents a2.st.name a2 hnd1
  refine ⟨hlook, ?_, ?_, ?_, rfl⟩
  · have hlen := length_dictSet (register_agent o a1).agents a2.st.name a2
    rw [if_pos hmem] at hlen
    exact hlen
  · exact List.count_eq_one_of_mem hnd2
      (mem_keys_dictSet_self (register_agent o a1).agents a2.st.name a2)
  · unfold get_all_agent_status
    have hmap := dictGet?_map_snd
      (register_agent (register_agent o a1) a2).agents a2.st.name
      (fun ag => ag.st.get_status)
    rw [hmap, hlook]
    rfl

/-- A second concrete agent sharing `cAgent`'s name. -/
def cAgent2 : Agent :=
  { st := { name := "A", description := "second agent", agent_id := "id-a2",
            created_at := 1, status := "initialized", metrics := initMetrics },
    proc := cOkProc }

/-- The first registration of the C8 witness: an agent named `"A"` into an
empty orchestrator. -/
def cOrch1 : Orchestrator :=
  register_agent emptyOrch { st := cAgent, proc := cOkProc }

/-- Witness for C8: two concrete agents both named `"A"` registered into an
empty orchestrator. -/
theorem C8_register_replaces_witness :
    (({ st := cAgent, proc := cOkProc } : Agent).st.name = cAgent2.st.name) ∧
    (dictGet? (register_agent cOrch1 cAgent2).agents cAgent2.st.name
        = Option.some cAgent2) ∧
    ((register_agent cOrch1 cAgent2).agents.length = cOrch1.agents.length) ∧
    (cAgent2.st.get_status.description = "second agent") := by
  obtain ⟨h1, h2, h3, h4, h5⟩ :=
    C8_register_replaces emptyOrch { st := cAgent, proc := cOkProc } cAgent2
      rfl (by simp [emptyOrch])
  exact ⟨rfl, h1, h2, rfl⟩

/-- C7: for each concrete agent (`LanguageSelectorAgent`, `SpeechAgent`)
and every input whose `task_type` matches none of that agent's recognized
string tags (a missing `task_type`, a non-string value, or an unknown
string), `process` raises an error whose message names the offending value
(`"Unknown task type: <value>"`), and `execute_task` converts that
exception into a failure envelope carrying the message instead of letting
it escape. -/
theorem C7_unknown_task_type :
    (∀ (h : LanguageHandlers) (input : List (String × Val)),
      (∀ tag ∈ languageTaskTags,
        taskTypeIs (dictGet? input "task_type") tag = false) →
      (languageProcess h input = Except.error
        ("Unknown task type: " ++ pyStrGet (dictGet? input "task_type"))) ∧
      (∀ (a : AgentState) (e : ExecEnv),
        ((execute_task (languageProcess h) a e input).2.success = false) ∧
        ((execute_task (languageProcess h) a e input).2.error = Option.some
          ("Unknown task type: " ++ pyStrGet (dictGet? input "task_type"))))) ∧
    (∀ (h : SpeechHandlers) (input : List (String × Val)),
      (∀ tag ∈ speechTaskTags,
        taskTypeIs (dictGet? input "task_type") tag = false) →
      (speechProcess h input = Except.error
        ("Unknown task type: " ++ pyStrGet (dictGet? input "task_type"))) ∧
      (∀ (a : AgentState) (e : ExecEnv),
        ((execute_task (speechProcess h) a e input).2.success = false) ∧
        ((execute_task (speechProcess h) a e input).2.error = Option.some
          ("Unknown task type: " ++ pyStrGet (dictGet? input "task_type"))))) := by
  constructor
  · intro h input hyp
    have h1 := hyp "detect_language" (by simp [languageTaskTags])
    have h2 := hyp "translate_content" (by simp [languageTaskTags])
    have h3 := hyp "localize_learning" (by simp [languageTaskTags])
    have h4 := hyp "translate_quiz" (by simp [languageTaskTags])
    have h5 := hyp "translate_resources" (by simp [languageTaskTags])
    have h6 := hyp "create_multilingual_prompt" (by simp [languageTaskTags])
    have hp : languageProcess h input = Except.error
        ("Unknown task type: " ++ pyStrGet (dictGet? input "task_type")) := by
      simp [languageProcess, h1, h2, h3, h4, h5, h6]
    refine ⟨hp, ?_⟩
    intro a e
    unfold execute_task
    rw [hp]
    exact ⟨rfl, rfl⟩
  · intro h input hyp
    have h1 := hyp "speech_to_text" (by simp [speechTaskTags])
    have h2 := hyp "text_to_speech" (by simp [speechTaskTags])
    have h3 := hyp "process_voice_question" (by simp [speechTaskTags])
    have h4 := hyp "generate_audio_response" (by simp [speechTaskTags])
    have h5 := hyp "voice_interaction_flow" (by simp [speechTaskTags])
    have hp : speechProcess h input = Except.error
        ("Unknown task type: " ++ pyStrGet (dictGet? input "task_type")) := by
      simp [speechProcess, h1, h2, h3, h4, h5]
    refine ⟨hp, ?_⟩
    intro a e
    unfold execute_task
    rw [hp]
    exact ⟨rfl, rfl⟩

/-- A trivial handler used to instantiate the handler structures in the C7
witness; it is never reached on the unknown-tag path. -/
def cHandler : ProcessFun := fun _ => Except.ok Val.null

/-- Concrete language handlers for the C7 witness. -/
def cLangHandlers : LanguageHandlers :=
  { detect_language := cHandler, translate_content := cHandler,
    localize_learning := cHandler, translate_quiz := cHandler,
    translate_resources := cHandler, create_multilingual_prompt := cHandler }

/-- Concrete speech handlers for the C7 witness. -/
def cSpeechHandlers : SpeechHandlers :=
  { speech_to_text := cHandler, text_to_speech := cHandler,
    process_voice_question := cHandler, generate_audio_response := cHandler,
    voice_interaction_flow := cHandler }

/-- The unknown-`task_type` input of the C7 witness. -/
def cBogusInput : List (String × Val) := [("task_type", Val.str "bogus")]

/-- Witness for C7 at the concrete input `\x7b"task_type": "bogus"\x7d`
and at an input with no `task_type` key at all. -/
theorem C7_unknown_task_type_witness :
    (languageProcess cLangHandlers cBogusInput = Except.error
      ("Unknown task type: " ++ pyStrGet (dictGet? cBogusInput "task_type"))) ∧
    ((execute_task (languageProcess cLangHandlers) cAgent cEnv
        cBogusInput).2.error = Option.some
      ("Unknown task type: " ++ pyStrGet (dictGet? cBogusInput "task_type"))) ∧
    (speechProcess cSpeechHandlers [] = Except.error
      ("Unknown task type: " ++ pyStrGet (dictGet? [] "task_type"))) ∧
    (pyStrGet (dictGet? cBogusInput "task_type") = "bogus") ∧
    (pyStrGet (dictGet? ([] : List (String × Val)) "task_type") = "None") := by
  obtain ⟨hl1, hl2⟩ := C7_unknown_task_type.1 cLangHandlers cBogusInput
    (by decide)
  obtain ⟨hs1, hs2⟩ := C7_unknown_task_type.2 cSpeechHandlers [] (by decide)
  exact ⟨hl1, (hl2 cAgent cEnv).2, hs1, rfl, rfl⟩

/-- The results-cache invariant: every cached envelope is a success
envelope stored under its own `task_id`. -/
def CacheInv (o : Orchestrator) : Prop :=
  ∀ p ∈ o.results_cache, p.2.success = true ∧ p.2.task_id = Option.some p.1

theorem mem_dictDel {κ α : Type} [DecidableEq κ]
    (l : List (κ × α)) (k : κ) (p : κ × α) (h : p ∈ dictDel l k) : p ∈ l := by
  induction l with
  | nil => simp [dictDel] at h
  | cons q rest ih =>
    obtain ⟨k1, v1⟩ := q
    by_cases hk : k1 = k
    · subst hk
      simp [dictDel] at h
      exact List.mem_cons_of_mem _ h
    · simp [dictDel, hk] at h
      rcases h with h | h
      · simp [h]
      · exact List.mem_cons_of_mem _ (ih h)

theorem mem_foldl_dictDel {κ α : Type} [DecidableEq κ]
    (ks : List κ) (l : List (κ × α)) (p : κ × α)
    (h : p ∈ ks.foldl (fun c t => dictDel c t) l) : p ∈ l := by
  induction ks generalizing l with
  | nil => simpa using h
  | cons k rest ih =>
    simp only [List.foldl_cons] at h
    exact mem_dictDel l k p (ih (dictDel l k) h)

/-- Every envelope produced by `execute_task` carries the generated task
id (`task_id` is set on both the success and the failure path). -/
theorem execute_task_task_id (proc : ProcessFun) (a : AgentState)
    (e : ExecEnv) (d : List (String × Val)) :
    (execute_task proc a e d).2.task_id = Option.some e.task_id := by
  unfold execute_task
  cases proc d <;> rfl

/-- Reduction of `execute_agent_task` at a `None` agent name. -/
theorem execute_agent_task_none (o : Orchestrator) (d : List (String × Val))
    (e : ExecEnv) :
    execute_agent_task o Option.none d e
      = (o, notFoundEnvelope Option.none e.start_time) := rfl

/-- Reduction of `execute_agent_task` at an unregistered agent name. -/
theorem execute_agent_task_notfound (o : Orchestrator) (n : String)
    (d : List (String × Val)) (e : ExecEnv)
    (hlook : dictGet? o.agents n = Option.none) :
    execute_agent_task o (Option.some n) d e
      = (o, notFoundEnvelope (Option.some n) e.start_time) := by
  simp only [execute_agent_task, hlook]

/-- Reduction of `execute_agent_task` at a registered agent whose task
execution succeeds: the updated agent state is stored back and the success
envelope is cached under the generated task id. -/
theorem execute_agent_task_found_success (o : Orchestrator) (n : String)
    (ag : Agent) (d : List (String × Val)) (e : ExecEnv)
    (hlook : dictGet? o.agents n = Option.some ag)
    (hs : (execute_task ag.proc ag.st e d).2.success = true) :
    execute_agent_task o (Option.some n) d e
      = ({ agents := dictSet o.agents n
              { st := (execute_task ag.proc ag.st e d).1, proc := ag.proc },
           results_cache := dictSet o.results_cache e.task_id
              (execute_task ag.proc ag.st e d).2,
           running := o.running },
         (execute_task ag.proc ag.st e d).2) := by
  simp only [execute_agent_task, hlook, hs,
    execute_task_task_id ag.proc ag.st e d, if_true]

/-- Reduction of `execute_agent_task` at a registered agent whose task
execution fails: the updated agent state is stored back and the cache is
untouched. -/
theorem execute_agent_task_found_failure (o : Orchestrator) (n : String)
    (ag : Agent) (d : List (String × Val)) (e : ExecEnv)
    (hlook : dictGet? o.agents n = Option.some ag)
    (hs : (execute_task ag.proc ag.st e d).2.success = false) :
    execute_agent_task o (Option.some n) d e
      = ({ agents := dictSet o.agents n
              { st := (execute_task ag.proc ag.st e d).1, proc := ag.proc },
           results_cache := o.results_cache,
           running := o.running },
         (execute_task ag.proc ag.st e d).2) := by
  simp only [execute_agent_task, hlook, hs, Bool.false_eq_true, if_false]

/-- Preservation of the cache invariant by one `execute_agent_task` call,
together with the fact that a failure envelope is never cached. -/
theorem execute_agent_task_cacheInv (o : Orchestrator) (nm : Option String)
    (d : List (String × Val)) (e : ExecEnv) (hinv : CacheInv o) :
    CacheInv (execute_agent_task o nm d e).1 ∧
    ((execute_agent_task o nm d e).2.success = false →
      (execute_agent_task o nm d e).1.results_cache = o.results_cache) := by
  cases nm with
  | none => exact ⟨hinv, fun _ => rfl⟩
  | some n =>
    cases hlook : dictGet? o.agents n with
    | none =>
      rw [execute_agent_task_notfound o n d e hlook]
      exact ⟨hinv, fun _ => rfl⟩
    | some ag =>
      cases hs : (execute_task ag.proc ag.st e d).2.success with
      | false =>
        rw [execute_agent_task_found_failure o n ag d e hlook hs]
        exact ⟨hinv, fun _ => rfl⟩
      | true =>
        rw [execute_agent_task_found_success o n ag d e hlook hs]
        constructor
        · intro p hp
          rcases mem_dictSet o.results_cache e.task_id
              (execute_task ag.proc ag.st e d).2 p hp with h | h
          · exact hinv p h
          · subst h
            exact ⟨hs, execute_task_task_id ag.proc ag.st e d⟩
        · intro hfalse
          rw [hs] at hfalse
          cases hfalse

/-- Preservation of the cache invariant along the workflow loop. -/
theorem execute_workflow_go_cacheInv (steps : List Step) :
    ∀ (o : Orchestrator) (envs : Nat → ExecEnv) (i : Nat)
      (ctx : List (String × Val)) (acc : List Envelope),
      CacheInv o → CacheInv (execute_workflow_go o steps envs i ctx acc).1 := by
  induction steps with
  | nil =>
    intro o envs i ctx acc hinv
    exact hinv
  | cons s rest ih =>
    intro o envs i ctx acc hinv
    unfold execute_workflow_go
    have hr := (execute_agent_task_cacheInv o s.agent
      (dictSet (s.data.getD []) "context" (Val.dict ctx)) (envs i) hinv).1
    cases hs : (execute_agent_task o s.agent
        (dictSet (s.data.getD []) "context" (Val.dict ctx)) (envs i)).2.success with
    | true =>
      simp [hs]
      exact ih _ envs (i + 1) _ _ hr
    | false =>
      cases hreq : s.required.getD true with
      | true =>
        simpa [hs, hreq] using hr
      | false =>
        simp [hs, hreq]
        exact ih _ envs (i + 1) _ _ hr

/-- C9: the invariant "every cached envelope has `success = true` and is
keyed by its own `task_id`" is preserved by every orchestrator operation:
`execute_agent_task` caches an envelope exactly when it is a success
envelope (a failure envelope, including the agent-not-found envelope,
leaves the cache untouched), and registration, unregistration, workflow
execution and cache cleanup never add an entry violating it. -/
theorem C9_cache_invariant (o : Orchestrator) (hinv : CacheInv o) :
    (∀ a, CacheInv (register_agent o a)) ∧
    (∀ n, CacheInv (unregister_agent o n)) ∧
    (∀ nm d e, CacheInv (execute_agent_task o nm d e).1 ∧
      ((execute_agent_task o nm d e).2.success = false →
        (execute_agent_task o nm d e).1.results_cache = o.results_cache)) ∧
    (∀ w envs, CacheInv (execute_workflow o w envs).1) ∧
    (∀ t m, CacheInv (cleanup_results_cache o t m)) := by
  refine ⟨fun a => hinv, fun n => ?_, ?_, ?_, ?_⟩
  · unfold unregister_agent
    by_cases hmem : (dictGet? o.agents n).isSome <;> simp [hmem] <;> exact hinv
  · intro nm d e
    exact execute_agent_task_cacheInv o nm d e hinv
  · intro w envs
    exact execute_workflow_go_cacheInv w o envs 0 [] [] hinv
  · intro t m
    unfold cleanup_results_cache
    cases hc : computeToRemove t m o.results_cache with
    | none => exact hinv
    | some ks =>
      intro p hp
      exact hinv p (mem_foldl_dictDel ks o.results_cache p hp)

/-- Witness for C9 at a concrete orchestrator with an empty cache. -/
theorem C9_cache_invariant_witness :
    CacheInv emptyOrch ∧
    CacheInv (register_agent emptyOrch cAgent2) ∧
    CacheInv (execute_agent_task emptyOrch (Option.some "ghost") [] cEnv).1 ∧
    CacheInv (cleanup_results_cache emptyOrch 0 0) := by
  have hinv : CacheInv emptyOrch := by
    intro p hp
    simp [emptyOrch] at hp
  obtain ⟨h1, h2, h3, h4, h5⟩ := C9_cache_invariant emptyOrch hinv
  exact ⟨hinv, h1 cAgent2, (h3 (Option.some "ghost") [] cEnv).1, h5 0 0⟩

/-- A cached success envelope whose stored timestamp is malformed (not
parseable by `fromisoformat`). -/
def cBadEnv : Envelope :=
  { success := true, task_id := Option.some "bad",
    agent_name := Option.some "A", result := Option.some Val.null,
    error := Option.none, processing_time := Option.some 0,
    timestamp := "garbage" }

/-- A cached success envelope whose age (100 hours at sweep time 360000)
far exceeds the default 24-hour threshold. -/
def cOldEnv : Envelope :=
  { success := true, task_id := Option.some "old",
    agent_name := Option.some "A", result := Option.some Val.null,
    error := Option.none, processing_time := Option.some 0,
    timestamp := "0" }

/-- An orchestrator whose cache holds the malformed entry followed by the
expired entry. -/
def cBadCacheOrch : Orchestrator :=
  { agents := [],
    results_cache := [("bad", cBadEnv), ("old", cOldEnv)],
    running := false }

/-- C5 (code bug, evaluated at the failing input): the `try` of
`cleanup_results_cache` wraps the whole sweep, so the exception raised by
`datetime.fromisoformat` on the malformed entry aborts the scan before the
deletion loop runs; the entry `"old"`, 100 hours old against a 24-hour
threshold, is *not* evicted, contradicting the required per-entry failure
isolation. -/
theorem C5_cleanup_aborts_on_malformed :
    (fromisoformat cBadEnv.timestamp = Option.none) ∧
    (fromisoformat cOldEnv.timestamp = Option.some 0) ∧
    (((360000 - 0 : Int) : ℚ) / 3600 > 24) ∧
    (computeToRemove 360000 24 cBadCacheOrch.results_cache = Option.none) ∧
    (cleanup_results_cache cBadCacheOrch 360000 24 = cBadCacheOrch) := by
  refine ⟨by decide, by decide, by norm_num, by decide, ?_⟩
  have h : computeToRemove 360000 24 cBadCacheOrch.results_cache
      = Option.none := by decide
  unfold cleanup_results_cache
  rw [h]

/-! Machinery relating the eviction sweep to a pointwise filter, used for
C6. -/

/-- The pointwise eviction test of the sweep: `true` when the entry parses
and its age strictly exceeds the threshold. -/
def expiredB (current_time : Int) (max_age_hours : ℚ)
    (p : String × Envelope) : Bool :=
  match fromisoformat p.2.timestamp with
  | Option.some t =>
      let age_seconds : Int := current_time - t
      decide ((age_seconds : ℚ) / 3600 > max_age_hours)
  | Option.none => false

theorem computeToRemove_eq_filter (ct : Int) (ma : ℚ)
    (cache : List (String × Envelope))
    (hparse : ∀ p ∈ cache, (fromisoformat p.2.timestamp).isSome) :
    computeToRemove ct ma cache
      = Option.some ((cache.filter (expiredB ct ma)).map Prod.fst) := by
  induction cache with
  | nil => rfl
  | cons p rest ih =>
    obtain ⟨tid, env⟩ := p
    have hp := hparse (tid, env) (by simp)
    obtain ⟨t, ht⟩ := Option.isSome_iff_exists.mp hp
    have hrest := ih (fun q hq => hparse q (List.mem_cons_of_mem _ hq))
    unfold computeToRemove
    rw [ht, hrest]
    dsimp only
    by_cases hexp : ((ct - t : Int) : ℚ) / 3600 > ma
    · rw [if_pos hexp]
      have hexp2 : ma < ((ct : ℚ) - (t : ℚ)) / 3600 := by
        push_cast at hexp
        exact hexp
      simp [List.filter_cons, expiredB, ht, hexp2]
    · rw [if_neg hexp]
      have hexp2 : ¬ ma < ((ct : ℚ) - (t : ℚ)) / 3600 := by
        push_cast at hexp
        exact hexp
      simp [List.filter_cons, expiredB, ht, hexp2]

theorem keys_dictDel_sublist {κ α : Type} [DecidableEq κ]
    (l : List (κ × α)) (k : κ) :
    ((dictDel l k).map Prod.fst).Sublist (l.map Prod.fst) := by
  induction l with
  | nil => simp [dictDel]
  | cons q rest ih =>
    obtain ⟨k1, v1⟩ := q
    by_cases hk : k1 = k
    · subst hk
      simp [dictDel]
    · simp only [dictDel, hk, if_false, List.map_cons]
      exact List.Sublist.cons₂ k1 ih

theorem dictDel_eq_filter {κ α : Type} [DecidableEq κ]
    (l : List (κ × α)) (k : κ) (hnd : (l.map Prod.fst).Nodup) :
    dictDel l k = l.filter (fun p => decide (p.1 ≠ k)) := by
  induction l with
  | nil => rfl
  | cons q rest ih =>
    obtain ⟨k1, v1⟩ := q
    simp only [List.map_cons, List.nodup_cons] at hnd
    by_cases hk : k1 = k
    · subst hk
      have hall : ∀ p ∈ rest, p.1 ≠ k1 := by
        intro p hp h2
        exact hnd.1 (h2 ▸ List.mem_map_of_mem Prod.fst hp)
      have hfil : rest.filter (fun p => !decide (p.1 = k1)) = rest := by
        refine List.filter_eq_self.mpr ?_
        intro p hp
        simp [hall p hp]
      simp [dictDel, hfil]
    · simp [dictDel, hk, ih hnd.2]

theorem foldl_dictDel_eq_filter {κ α : Type} [DecidableEq κ]
    (ks : List κ) (l : List (κ × α)) (hnd : (l.map Prod.fst).Nodup) :
    ks.foldl (fun c t => dictDel c t) l
      = l.filter (fun p => decide (p.1 ∉ ks)) := by
  induction ks generalizing l with
  | nil =>
    refine (List.filter_eq_self.mpr ?_).symm
    intro p hp
    simp
  | cons k rest ih =>
    have hnd2 : ((dictDel l k).map Prod.fst).Nodup :=
      (keys_dictDel_sublist l k).nodup hnd
    simp only [List.foldl_cons]
    rw [ih (dictDel l k) hnd2, dictDel_eq_filter l k hnd, List.filter_filter]
    refine List.filter_congr ?_
    intro p hp
    by_cases h1 : p.1 = k
    · simp [h1]
    · by_cases h2 : p.1 ∈ rest <;> simp [h1, h2]

theorem eq_of_mem_nodup_keys {κ α : Type} [DecidableEq κ]
    (l : List (κ × α)) (hnd : (l.map Prod.fst).Nodup)
    (p q : κ × α) (hp : p ∈ l) (hq : q ∈ l) (hk : p.1 = q.1) : p = q := by
  induction l with
  | nil => cases hp
  | cons r rest ih =>
    simp only [List.map_cons, List.nodup_cons] at hnd
    rcases List.mem_cons.mp hp with hp1 | hp1 <;>
      rcases List.mem_cons.mp hq with hq1 | hq1
    · rw [hp1, hq1]
    · exfalso
      apply hnd.1
      rw [hp1] at hk
      exact hk ▸ List.mem_map_of_mem Prod.fst hq1
    · exfalso
      apply hnd.1
      rw [hq1] at hk
      exact hk ▸ List.mem_map_of_mem Prod.fst hp1
    · exact ih hnd.2 hp1 hq1

/-- On a cache whose timestamps all parse and whose keys are unique (as in
a genuine Python dict), the sweep is a pointwise filter: exactly the
entries whose age strictly exceeds the threshold are evicted. -/
theorem cleanup_eq_filter (o : Orchestrator) (ct : Int) (ma : ℚ)
    (hparse : ∀ p ∈ o.results_cache, (fromisoformat p.2.timestamp).isSome)
    (hnd : (o.results_cache.map Prod.fst).Nodup) :
    cleanup_results_cache o ct ma
      = { o with results_cache :=
            o.results_cache.filter (fun p => !expiredB ct ma p) } := by
  unfold cleanup_results_cache
  rw [computeToRemove_eq_filter ct ma o.results_cache hparse]
  dsimp only
  congr 1
  rw [foldl_dictDel_eq_filter _ _ hnd]
  refine List.filter_congr ?_
  intro p hp
  cases hb : expiredB ct ma p with
  | true =>
    have hmem : p.1 ∈ (o.results_cache.filter (expiredB ct ma)).map Prod.fst :=
      List.mem_map_of_mem Prod.fst (List.mem_filter.mpr ⟨hp, hb⟩)
    simp [hmem]
  | false =>
    have hnotmem :
        p.1 ∉ (o.results_cache.filter (expiredB ct ma)).map Prod.fst := by
      intro hmem
      obtain ⟨q, hq, hqk⟩ := List.mem_map.mp hmem
      have hq2 := List.mem_filter.mp hq
      have hqp : q = p := eq_of_mem_nodup_keys _ hnd q p hq2.1 hp hqk
      rw [hqp] at hq2
      rw [hq2.2] at hb
      cases hb
    simp [hnotmem]

/-- C6 (amended): with `max_age_hours = 0`, `cleanup_results_cache` evicts
exactly the entries whose stored timestamp is *strictly earlier* than the
sweep's current time (the eviction test `age > max_age` is strict, so an
entry timestamped at or after the current instant is retained); on an
empty cache the call is a no-op for every threshold. Hypotheses: every
stored timestamp parses and the cache keys are unique, both guaranteed for
caches built by the orchestrator itself. -/
theorem C6_cleanup_zero (o : Orchestrator) (ct : Int)
    (hparse : ∀ p ∈ o.results_cache, (fromisoformat p.2.timestamp).isSome)
    (hnd : (o.results_cache.map Prod.fst).Nodup) :
    ((cleanup_results_cache o ct 0).results_cache
      = o.results_cache.filter
          (fun p => match fromisoformat p.2.timestamp with
            | Option.some t => decide (ct ≤ t)
            | Option.none => true)) ∧
    (∀ ma : ℚ, o.results_cache = [] → cleanup_results_cache o ct ma = o) := by
  constructor
  · rw [cleanup_eq_filter o ct 0 hparse hnd]
    refine List.filter_congr ?_
    intro p hp
    obtain ⟨t, ht⟩ := Option.isSome_iff_exists.mp (hparse p hp)
    simp only [expiredB, ht]
    by_cases hlt : t < ct
    · have hgt : ((ct : ℚ) - (t : ℚ)) / 3600 > 0 := by
        rw [gt_iff_lt, lt_div_iff₀ (by norm_num : (0 : ℚ) < 3600), zero_mul,
          sub_pos]
        exact_mod_cast hlt
      have hnle : ¬ ct ≤ t := not_le.mpr hlt
      simp [hgt, hnle]
    · have hngt : ¬ ((ct : ℚ) - (t : ℚ)) / 3600 > 0 := by
        rw [gt_iff_lt, lt_div_iff₀ (by norm_num : (0 : ℚ) < 3600), zero_mul,
          sub_pos]
        exact_mod_cast hlt
      have hle : ct ≤ t := not_lt.mp hlt
      simp [hngt, hle]
  · intro ma hempty
    have h1 : computeToRemove ct ma o.results_cache = Option.some [] := by
      rw [hempty]
      rfl
    unfold cleanup_results_cache
    rw [h1]
    dsimp only [List.foldl]

/-- A cached success envelope whose timestamp equals the sweep instant of
the C6 counterexample. -/
def cFreshEnv : Envelope :=
  { success := true, task_id := Option.some "k",
    agent_name := Option.some "A", result := Option.some Val.null,
    error := Option.none, processing_time := Option.some 0,
    timestamp := "100" }

/-- An orchestrator caching only `cFreshEnv` under its task id. -/
def cFreshOrch : Orchestrator :=
  { agents := [], results_cache := [("k", cFreshEnv)], running := false }

/-- Counterexample to C6 as stated: the sweep's eviction test
`age_hours > max_age_hours` is strict, so with `max_age_hours = 0` an
entry whose (parseable) timestamp equals the sweep's current time has age
exactly 0 and is *not* evicted — `cleanup_results_cache` with threshold 0
leaves the cache unchanged instead of evicting every entry. -/
theorem C6_cleanup_zero_counterexample :
    (fromisoformat cFreshEnv.timestamp = Option.some 100) ∧
    (cleanup_results_cache cFreshOrch 100 0 = cFreshOrch) ∧
    (cFreshOrch.results_cache = [("k", cFreshEnv)]) := by
  refine ⟨by decide, ?_, rfl⟩
  have ht : fromisoformat cFreshEnv.timestamp = Option.some 100 := by decide
  have hexp : expiredB 100 0 ("k", cFreshEnv) = false := by
    simp only [expiredB, ht]
    norm_num
  have hparse : ∀ p ∈ cFreshOrch.results_cache,
      (fromisoformat p.2.timestamp).isSome := by decide
  have h1 : computeToRemove 100 0 cFreshOrch.results_cache
      = Option.some [] := by
    rw [computeToRemove_eq_filter 100 0 cFreshOrch.results_cache hparse]
    simp [cFreshOrch, List.filter_cons, hexp]
  unfold cleanup_results_cache
  rw [h1]
  dsimp only [List.foldl]

/-- Witness for C6 at a concrete one-entry cache swept at a strictly later
instant, and at the empty cache. -/
theorem C6_cleanup_zero_witness :
    (∀ p ∈ cFreshOrch.results_cache, (fromisoformat p.2.timestamp).isSome) ∧
    ((cFreshOrch.results_cache.map Prod.fst).Nodup) ∧
    ((cleanup_results_cache cFreshOrch 200 0).results_cache
      = cFreshOrch.results_cache.filter
          (fun p => match fromisoformat p.2.timestamp with
            | Option.some t => decide ((200 : Int) ≤ t)
            | Option.none => true)) ∧
    (cleanup_results_cache emptyOrch 0 24 = emptyOrch) :=
  ⟨by decide, by decide,
   (C6_cleanup_zero cFreshOrch 200 (by decide) (by decide)).1,
   (C6_cleanup_zero emptyOrch 0 (by decide) (by decide)).2 24 rfl⟩

/-! Reduction lemmas for the workflow loop, one per control path. -/

theorem execute_workflow_go_nil (o : Orchestrator) (envs : Nat → ExecEnv)
    (i : Nat) (ctx : List (String × Val)) (acc : List Envelope) :
    execute_workflow_go o [] envs i ctx acc = (o, acc) := rfl

theorem execute_workflow_go_cons_success (o : Orchestrator) (s : Step)
    (rest : List Step) (envs : Nat → ExecEnv) (i : Nat)
    (ctx : List (String × Val)) (acc : List Envelope)
    (hs : (execute_agent_task o s.agent
        (dictSet (s.data.getD []) "context" (Val.dict ctx))
        (envs i)).2.success = true) :
    execute_workflow_go o (s :: rest) envs i ctx acc
      = execute_workflow_go
          (execute_agent_task o s.agent
            (dictSet (s.data.getD []) "context" (Val.dict ctx)) (envs i)).1
          rest envs (i + 1)
          (dictSet ctx (pyStrOptName s.agent ++ "_result")
            ((execute_agent_task o s.agent
              (dictSet (s.data.getD []) "context" (Val.dict ctx))
              (envs i)).2.result.getD Val.null))
          (acc ++ [(execute_agent_task o s.agent
            (dictSet (s.data.getD []) "context" (Val.dict ctx))
            (envs i)).2]) := by
  conv_lhs => rw [execute_workflow_go]
  dsimp only
  rw [if_pos hs]

theorem execute_workflow_go_cons_fail_required (o : Orchestrator) (s : Step)
    (rest : List Step) (envs : Nat → ExecEnv) (i : Nat)
    (ctx : List (String × Val)) (acc : List Envelope)
    (hs : (execute_agent_task o s.agent
        (dictSet (s.data.getD []) "context" (Val.dict ctx))
        (envs i)).2.success = false)
    (hreq : s.required.getD true = true) :
    execute_workflow_go o (s :: rest) envs i ctx acc
      = ((execute_agent_task o s.agent
            (dictSet (s.data.getD []) "context" (Val.dict ctx)) (envs i)).1,
         acc ++ [(execute_agent_task o s.agent
            (dictSet (s.data.getD []) "context" (Val.dict ctx))
            (envs i)).2]) := by
  conv_lhs => rw [execute_workflow_go]
  dsimp only
  rw [if_neg (by rw [hs]; exact Bool.false_ne_true), if_pos hreq]

theorem execute_workflow_go_cons_fail_optional (o : Orchestrator) (s : Step)
    (rest : List Step) (envs : Nat → ExecEnv) (i : Nat)
    (ctx : List (String × Val)) (acc : List Envelope)
    (hs : (execute_agent_task o s.agent
        (dictSet (s.data.getD []) "context" (Val.dict ctx))
        (envs i)).2.success = false)
    (hreq : s.required.getD true = false) :
    execute_workflow_go o (s :: rest) envs i ctx acc
      = execute_workflow_go
          (execute_agent_task o s.agent
            (dictSet (s.data.getD []) "context" (Val.dict ctx)) (envs i)).1
          rest envs (i + 1) ctx
          (acc ++ [(execute_agent_task o s.agent
            (dictSet (s.data.getD []) "context" (Val.dict ctx))
            (envs i)).2]) := by
  conv_lhs => rw [execute_workflow_go]
  dsimp only
  rw [if_neg (by rw [hs]; exact Bool.false_ne_true),
    if_neg (by rw [hreq]; exact Bool.false_ne_true)]

/-- The envelope accumulator is a pure prefix: running the loop with any
`acc` yields the same final orchestrator and `acc` prepended to the
envelopes the loop itself produces. -/
theorem execute_workflow_go_acc (steps : List Step) :
    ∀ (o : Orchestrator) (envs : Nat → ExecEnv) (i : Nat)
      (ctx : List (String × Val)) (acc : List Envelope),
      execute_workflow_go o steps envs i ctx acc
        = ((execute_workflow_go o steps envs i ctx []).1,
           acc ++ (execute_workflow_go o steps envs i ctx []).2) := by
  induction steps with
  | nil =>
    intro o envs i ctx acc
    simp [execute_workflow_go_nil]
  | cons s rest ih =>
    intro o envs i ctx acc
    cases hs : (execute_agent_task o s.agent
        (dictSet (s.data.getD []) "context" (Val.dict ctx))
        (envs i)).2.success with
    | true =>
      rw [execute_workflow_go_cons_success o s rest envs i ctx acc hs,
        execute_workflow_go_cons_success o s rest envs i ctx [] hs, ih]
      simp only [List.nil_append]
      rw [ih _ envs (i + 1) _
        [(execute_agent_task o s.agent
          (dictSet (s.data.getD []) "context" (Val.dict ctx)) (envs i)).2]]
      simp
    | false =>
      cases hreq : s.required.getD true with
      | true =>
        rw [execute_workflow_go_cons_fail_required o s rest envs i ctx acc hs
            hreq,
          execute_workflow_go_cons_fail_required o s rest envs i ctx [] hs
            hreq]
        simp
      | false =>
        rw [execute_workflow_go_cons_fail_optional o s rest envs i ctx acc hs
            hreq,
          execute_workflow_go_cons_fail_optional o s rest envs i ctx [] hs
            hreq, ih]
        simp only [List.nil_append]
        rw [ih _ envs (i + 1) _
          [(execute_agent_task o s.agent
            (dictSet (s.data.getD []) "context" (Val.dict ctx)) (envs i)).2]]
        simp

/-- The loop appends at most one envelope per remaining step. -/
theorem execute_workflow_go_length (steps : List Step) :
    ∀ (o : Orchestrator) (envs : Nat → ExecEnv) (i : Nat)
      (ctx : List (String × Val)) (acc : List Envelope),
      (execute_workflow_go o steps envs i ctx acc).2.length
        ≤ acc.length + steps.length := by
  induction steps with
  | nil =>
    intro o envs i ctx acc
    simp [execute_workflow_go_nil]
  | cons s rest ih =>
    intro o envs i ctx acc
    cases hs : (execute_agent_task o s.agent
        (dictSet (s.data.getD []) "context" (Val.dict ctx))
        (envs i)).2.success with
    | true =>
      rw [execute_workflow_go_cons_success o s rest envs i ctx acc hs]
      have h := ih (execute_agent_task o s.agent
          (dictSet (s.data.getD []) "context" (Val.dict ctx)) (envs i)).1
        envs (i + 1)
        (dictSet ctx (pyStrOptName s.agent ++ "_result")
          ((execute_agent_task o s.agent
            (dictSet (s.data.getD []) "context" (Val.dict ctx))
            (envs i)).2.result.getD Val.null))
        (acc ++ [(execute_agent_task o s.agent
          (dictSet (s.data.getD []) "context" (Val.dict ctx)) (envs i)).2])
      simp only [List.length_append, List.length_cons, List.length_nil] at h ⊢
      omega
    | false =>
      cases hreq : s.required.getD true with
      | true =>
        rw [execute_workflow_go_cons_fail_required o s rest envs i ctx acc hs
            hreq]
        simp only [List.length_append, List.length_cons, List.length_nil]
        omega
      | false =>
        rw [execute_workflow_go_cons_fail_optional o s rest envs i ctx acc hs
            hreq]
        have h := ih (execute_agent_task o s.agent
            (dictSet (s.data.getD []) "context" (Val.dict ctx)) (envs i)).1
          envs (i + 1) ctx
          (acc ++ [(execute_agent_task o s.agent
            (dictSet (s.data.getD []) "context" (Val.dict ctx)) (envs i)).2])
        simp only [List.length_append, List.length_cons, List.length_nil] at h ⊢
        omega

/-- C3: workflow execution runs the steps strictly in order, injecting the
accumulated context into each step's task data under the key `"context"`
before execution (conjunct 4 exhibits this: with agent `A` succeeding and
agent `B` echoing its own task data, `B`'s envelope shows its task data
carrying `context["A_result"]` equal to `A`'s earlier result); after a
success the context gains `"{agent}_result"`; a failing step whose
`required` flag is true (the default when the key is absent) stops the run
with exactly the envelopes produced so far and the remaining steps never
executed (conjunct 2), while a failing optional step does not halt the run
(conjunct 3); the method is total — it never raises — and returns one
envelope per executed step, never more than one per step (conjunct 1). -/
theorem C3_execute_workflow (o : Orchestrator) (envs : Nat → ExecEnv) :
    (∀ steps, (execute_workflow o steps envs).2.length ≤ steps.length) ∧
    (∀ s rest,
      (execute_agent_task o s.agent
        (dictSet (s.data.getD []) "context" (Val.dict [])) (envs 0)).2.success
          = false →
      s.required.getD true = true →
      execute_workflow o (s :: rest) envs
        = ((execute_agent_task o s.agent
              (dictSet (s.data.getD []) "context" (Val.dict [])) (envs 0)).1,
           [(execute_agent_task o s.agent
              (dictSet (s.data.getD []) "context" (Val.dict [])) (envs 0)).2])) ∧
    (∀ s rest,
      (execute_agent_task o s.agent
        (dictSet (s.data.getD []) "context" (Val.dict [])) (envs 0)).2.success
          = false →
      s.required.getD true = false →
      (execute_workflow o (s :: rest) envs).2
        = (execute_agent_task o s.agent
            (dictSet (s.data.getD []) "context" (Val.dict [])) (envs 0)).2
          :: (execute_workflow_go
               (execute_agent_task o s.agent
                 (dictSet (s.data.getD []) "context" (Val.dict [])) (envs 0)).1
               rest envs (0 + 1) [] []).2) ∧
    (∀ (agA agB : Agent) (dA dB : List (String × Val)) (resA : Val)
        (r1 r2 : Option Bool),
      dictGet? o.agents "A" = Option.some agA →
      dictGet? o.agents "B" = Option.some agB →
      agA.proc (dictSet dA "context" (Val.dict [])) = Except.ok resA →
      (∀ d, agB.proc d = Except.ok (Val.dict d)) →
      ((execute_workflow o
          [{ agent := Option.some "A", data := Option.some dA, required := r1 },
           { agent := Option.some "B", data := Option.some dB, required := r2 }]
          envs).2.map (fun e => e.result)
        = [Option.some resA,
           Option.some (Val.dict (dictSet dB "context"
             (Val.dict [("A_result", resA)])))] ∧
       dictGet? (dictSet dB "context" (Val.dict [("A_result", resA)]))
           "context" = Option.some (Val.dict [("A_result", resA)]) ∧
       dictGet? [("A_result", resA)] "A_result" = Option.some resA)) := by
  refine ⟨?_, ?_, ?_, ?_⟩
  · intro steps
    simpa using execute_workflow_go_length steps o envs 0 [] []
  · intro s rest hs hreq
    unfold execute_workflow
    rw [execute_workflow_go_cons_fail_required o s rest envs 0 [] [] hs hreq]
    simp
  · intro s rest hs hreq
    unfold execute_workflow
    rw [execute_workflow_go_cons_fail_optional o s rest envs 0 [] [] hs hreq,
      execute_workflow_go_acc rest]
    simp
  · intro agA agB dA dB resA r1 r2 hA hB hpA hBecho
    have hsucc1 : (execute_task agA.proc agA.st (envs 0)
        (dictSet dA "context" (Val.dict []))).2.success = true := by
      unfold execute_task
      rw [hpA]
    have hres1 : (execute_task agA.proc agA.st (envs 0)
        (dictSet dA "context" (Val.dict []))).2.result
          = Option.some resA := by
      unfold execute_task
      rw [hpA]
    have hexec1 := execute_agent_task_found_success o "A" agA
      (dictSet dA "context" (Val.dict [])) (envs 0) hA hsucc1
    have h1 : (execute_agent_task o (Option.some "A")
        (dictSet dA "context" (Val.dict [])) (envs 0)).2.success = true := by
      rw [hexec1]
      exact hsucc1
    refine ⟨?_, dictGet?_dictSet_self dB "context"
        (Val.dict [("A_result", resA)]),
      dictGet?_dictSet_self [] "A_result" resA⟩
    unfold execute_workflow
    rw [execute_workflow_go_cons_success o
      { agent := Option.some "A", data := Option.some dA, required := r1 }
      [{ agent := Option.some "B", data := Option.some dB, required := r2 }]
      envs 0 [] [] h1]
    dsimp only [Option.getD]
    rw [hexec1]
    dsimp only
    rw [hres1]
    dsimp only [Option.getD]
    have hlookB : dictGet? (dictSet o.agents "A"
        { st := (execute_task agA.proc agA.st (envs 0)
            (dictSet dA "context" (Val.dict []))).1, proc := agA.proc })
        "B" = Option.some agB := by
      rw [dictGet?_dictSet_ne o.agents "A" "B" _ (by decide)]
      exact hB
    have hsucc2 : ∀ ctx2 : Val, (execute_task agB.proc agB.st (envs (0 + 1))
        (dictSet dB "context" ctx2)).2.success = true := by
      intro ctx2
      unfold execute_task
      rw [hBecho]
    have hres2 : ∀ ctx2 : Val, (execute_task agB.proc agB.st (envs (0 + 1))
        (dictSet dB "context" ctx2)).2.result
          = Option.some (Val.dict (dictSet dB "context" ctx2)) := by
      intro ctx2
      unfold execute_task
      rw [hBecho]
    have hexec2 := execute_agent_task_found_success
      { agents := dictSet o.agents "A"
          { st := (execute_task agA.proc agA.st (envs 0)
              (dictSet dA "context" (Val.dict []))).1, proc := agA.proc },
        results_cache := dictSet o.results_cache (envs 0).task_id
          (execute_task agA.proc agA.st (envs 0)
            (dictSet dA "context" (Val.dict []))).2,
        running := o.running }
      "B" agB
      (dictSet dB "context" (Val.dict (dictSet []
        (pyStrOptName (Option.some "A") ++ "_result") resA)))
      (envs (0 + 1)) hlookB (hsucc2 _)
    have h2 : (execute_agent_task
        { agents := dictSet o.agents "A"
            { st := (execute_task agA.proc agA.st (envs 0)
                (dictSet dA "context" (Val.dict []))).1, proc := agA.proc },
          results_cache := dictSet o.results_cache (envs 0).task_id
            (execute_task agA.proc agA.st (envs 0)
              (dictSet dA "context" (Val.dict []))).2,
          running := o.running }
        (Option.some "B")
        (dictSet dB "context" (Val.dict (dictSet []
          (pyStrOptName (Option.some "A") ++ "_result") resA)))
        (envs (0 + 1))).2.success = true := by
      rw [hexec2]
      exact hsucc2 _
    rw [execute_workflow_go_cons_success _
      { agent := Option.some "B", data := Option.some dB, required := r2 }
      [] envs (0 + 1) _ _ h2]
    rw [execute_workflow_go_nil]
    dsimp only [Option.getD]
    rw [hexec2]
    dsimp only
    simp only [List.nil_append, List.map_append, List.map_cons, List.map_nil,
      hres1, hres2]
    rfl

/-- A concrete agent named `"A"` whose `process` always returns the
string `"resA"`. -/
def cAgentA : Agent :=
  { st := { name := "A", description := "a", agent_id := "ia",
            created_at := 0, status := "initialized", metrics := initMetrics },
    proc := fun _ => Except.ok (Val.str "resA") }

/-- A concrete agent named `"B"` whose `process` echoes its own task data,
exposing the context injected into it. -/
def cAgentB : Agent :=
  { st := { name := "B", description := "b", agent_id := "ib",
            created_at := 0, status := "initialized", metrics := initMetrics },
    proc := fun d => Except.ok (Val.dict d) }

/-- An orchestrator with `"A"` and `"B"` registered and an empty cache. -/
def cWorkOrch : Orchestrator :=
  { agents := [("A", cAgentA), ("B", cAgentB)], results_cache := [],
    running := false }

/-- A concrete per-step execution-environment supply. -/
def cEnvs : Nat → ExecEnv :=
  fun i => { task_id := "t" ++ toString i, start_time := 0, end_time := 1,
             err_time := 2 }

/-- Witness for C3: the two-step `A` then `B` workflow exhibits context
propagation, and a workflow headed by a failing step (unregistered agent,
`required` absent hence defaulting to true) halts with exactly one
envelope. -/
theorem C3_execute_workflow_witness :
    (dictGet? cWorkOrch.agents "A" = Option.some cAgentA) ∧
    (dictGet? cWorkOrch.agents "B" = Option.some cAgentB) ∧
    ((execute_workflow cWorkOrch
        [{ agent := Option.some "A", data := Option.some [],
           required := Option.none },
         { agent := Option.some "B", data := Option.some [],
           required := Option.none }]
        cEnvs).2.map (fun e => e.result)
      = [Option.some (Val.str "resA"),
         Option.some (Val.dict (dictSet [] "context"
           (Val.dict [("A_result", Val.str "resA")])))]) ∧
    ((execute_agent_task cWorkOrch (Option.some "ghost")
        (dictSet ((Option.none : Option (List (String × Val))).getD [])
          "context" (Val.dict [])) (cEnvs 0)).2.success = false) ∧
    (execute_workflow cWorkOrch
        [{ agent := Option.some "ghost", data := Option.none,
           required := Option.none },
         { agent := Option.some "B", data := Option.none,
           required := Option.none }]
        cEnvs
      = ((execute_agent_task cWorkOrch (Option.some "ghost")
            (dictSet ((Option.none : Option (List (String × Val))).getD [])
              "context" (Val.dict [])) (cEnvs 0)).1,
         [(execute_agent_task cWorkOrch (Option.some "ghost")
            (dictSet ((Option.none : Option (List (String × Val))).getD [])
              "context" (Val.dict [])) (cEnvs 0)).2])) := by
  refine ⟨rfl, rfl, ?_, rfl, ?_⟩
  · exact ((C3_execute_workflow cWorkOrch cEnvs).2.2.2 cAgentA cAgentB [] []
      (Val.str "resA") Option.none Option.none rfl rfl rfl (fun d => rfl)).1
  · exact (C3_execute_workflow cWorkOrch cEnvs).2.1
      { agent := Option.some "ghost", data := Option.none,
        required := Option.none }
      [{ agent := Option.some "B", data := Option.none,
         required := Option.none }]
      rfl rfl

theorem mem_of_dictGet? {κ α : Type} [DecidableEq κ]
    (l : List (κ × α)) (k : κ) (v : α)
    (h : dictGet? l k = Option.some v) : (k, v) ∈ l := by
  induction l with
  | nil => cases h
  | cons q rest ih =>
    obtain ⟨k1, v1⟩ := q
    by_cases hk : k1 = k
    · subst hk
      simp [dictGet?] at h
      simp [h]
    · simp [dictGet?, hk] at h
      exact List.mem_cons_of_mem _ (ih h)

theorem dictGet?_append_left {κ α : Type} [DecidableEq κ]
    (l1 l2 : List (κ × α)) (k : κ) (v : α)
    (h : dictGet? l1 k = Option.some v) :
    dictGet? (l1 ++ l2) k = Option.some v := by
  induction l1 with
  | nil => cases h
  | cons q rest ih =>
    obtain ⟨k1, v1⟩ := q
    by_cases hk : k1 = k
    · subst hk
      simp [dictGet?] at h
      simp [dictGet?, h]
    · simp [dictGet?, hk] at h ⊢
      exact ih h

theorem dictGet?_append_right {κ α : Type} [DecidableEq κ]
    (l1 l2 : List (κ × α)) (k : κ)
    (h : dictGet? l1 k = Option.none) :
    dictGet? (l1 ++ l2) k = dictGet? l2 k := by
  induction l1 with
  | nil => rfl
  | cons q rest ih =>
    obtain ⟨k1, v1⟩ := q
    by_cases hk : k1 = k
    · subst hk
      simp [dictGet?] at h
    · simp [dictGet?, hk] at h ⊢
      exact ih h

theorem heapAlloc_wf (h : MetricsHeap) (m : Metrics) (hwf : h.wf) :
    (heapAlloc h m).1.wf := by
  intro p hp
  simp only [heapAlloc, List.mem_append, List.mem_singleton] at hp
  rcases hp with hp | hp
  · exact Nat.lt_succ_of_lt (hwf p hp)
  · rw [hp]
    exact Nat.lt_succ_self h.next

theorem heapGet?_next_eq_none (h : MetricsHeap) (hwf : h.wf) :
    heapGet? h h.next = Option.none := by
  cases hc : heapGet? h h.next with
  | none => rfl
  | some m =>
    have hmem := mem_of_dictGet? h.cells h.next m hc
    have := hwf (h.next, m) hmem
    omega

/-- The snapshot returned by `get_status` points at a fresh cell holding a
copy of the live metrics. -/
theorem get_status_obj_fresh (h : MetricsHeap) (a : AgentObj) (m : Metrics)
    (hwf : h.wf) (hm : heapGet? h a.metricsRef = Option.some m) :
    heapGet? (get_status_obj h a).1 (get_status_obj h a).2.metricsRef
      = Option.some (Metrics.copy m) := by
  have hm2 : dictGet? h.cells a.metricsRef = Option.some m := hm
  simp only [get_status_obj, heapGet?, hm2, Option.getD, heapAlloc]
  rw [dictGet?_append_right h.cells _ h.next (heapGet?_next_eq_none h hwf)]
  simp [dictGet?]

/-- C10: `get_status` is a pure observer with copy semantics. In the
reference model with explicit metrics-dict references: the call leaves the
agent's fields and its live metrics cell untouched; a second call with no
intervening task execution reads identical metric values; the snapshot's
metrics is a fresh cell holding an equal copy of the live metrics; and
mutating the snapshot's cell afterwards leaves the agent's live metrics
unchanged. -/
theorem C10_get_status_copy (h : MetricsHeap) (a : AgentObj) (m : Metrics)
    (hwf : h.wf) (hm : heapGet? h a.metricsRef = Option.some m) :
    (heapGet? (get_status_obj h a).1 a.metricsRef = Option.some m) ∧
    ((get_status_obj h a).2.status = a.status) ∧
    ((get_status_obj h a).2.description = a.description) ∧
    ((get_status_obj h a).2.name = a.name) ∧
    (heapGet? (get_status_obj h a).1 (get_status_obj h a).2.metricsRef
        = Option.some (Metrics.copy m)) ∧
    (Metrics.copy m = m) ∧
    (heapGet? (get_status_obj (get_status_obj h a).1 a).1
        (get_status_obj (get_status_obj h a).1 a).2.metricsRef
      = Option.some (Metrics.copy m)) ∧
    (∀ m2, heapGet? (heapSet (get_status_obj h a).1
        (get_status_obj h a).2.metricsRef m2) a.metricsRef
      = Option.some m) := by
  have haref : a.metricsRef < h.next :=
    hwf (a.metricsRef, m) (mem_of_dictGet? h.cells a.metricsRef m hm)
  have hold : heapGet? (get_status_obj h a).1 a.metricsRef
      = Option.some m := by
    simp only [get_status_obj, hm, Option.getD, heapAlloc]
    exact dictGet?_append_left h.cells _ a.metricsRef m hm
  have hfresh := get_status_obj_fresh h a m hwf hm
  have hwf2 : (get_status_obj h a).1.wf := by
    simp only [get_status_obj]
    exact heapAlloc_wf h _ hwf
  refine ⟨hold, rfl, rfl, rfl, hfresh, rfl, ?_, ?_⟩
  · exact get_status_obj_fresh (get_status_obj h a).1 a m hwf2 hold
  · intro m2
    have hne : (get_status_obj h a).2.metricsRef ≠ a.metricsRef := by
      simp only [get_status_obj, heapAlloc]
      omega
    simp only [heapSet, heapGet?]
    rw [dictGet?_dictSet_ne _ _ _ _ hne]
    exact hold

/-- A one-cell metrics heap for the C10 witness. -/
def cHeap : MetricsHeap := { cells := [(0, initMetrics)], next := 1 }

/-- An agent object whose metrics live at address 0 of `cHeap`. -/
def cAgentObj : AgentObj :=
  { name := "A", description := "first agent", agent_id := "id-a",
    created_at := 0, status := "idle", metricsRef := 0 }

/-- Witness for C10 at a concrete heap and agent. -/
theorem C10_get_status_copy_witness :
    cHeap.wf ∧
    (heapGet? cHeap cAgentObj.metricsRef = Option.some initMetrics) ∧
    (heapGet? (get_status_obj cHeap cAgentObj).1 cAgentObj.metricsRef
        = Option.some initMetrics) ∧
    (∀ m2, heapGet? (heapSet (get_status_obj cHeap cAgentObj).1
        (get_status_obj cHeap cAgentObj).2.metricsRef m2) cAgentObj.metricsRef
      = Option.some initMetrics) := by
  have hwf : cHeap.wf := by
    intro p hp
    simp [cHeap] at hp
    simp [hp, cHeap]
  obtain ⟨h1, h2, h3, h4, h5, h6, h7, h8⟩ :=
    C10_get_status_copy cHeap cAgentObj initMetrics hwf rfl
  exact ⟨hwf, rfl, h1, h8⟩

end AgentCore
